import Mathlib

/-!
Verification of the rensen incremental backup orchestrator.

Shallow embedding of the daemon (src/daemon/src/daemon.rs, src/daemon/src/main.rs)
and the utility layer (src/src/utils.rs) of the bampam/rensen repository.

Conventions of the embedding:
* instants are modelled as natural numbers counting seconds since the Unix
  epoch (chrono nanoseconds are irrelevant to every property below, which
  only inspects whole seconds);
* paths are modelled as strings, `PathBuf::join` as `pathJoin`;
* machine integers (u64, u32) are modelled as `Nat`; none of the embedded
  code can overflow them on the inputs considered;
* fallible Rust calls return `Except`; calls whose `Result` the source
  discards with `let _ =` are driven by an explicit outcome oracle so that
  the discarding itself is visible in the model;
* external collaborators (the sha3 crate's digest, the sftp transfer run)
  are parameters of the functions that call them.
-/

namespace Rensen

/-- Error taxonomy of `rensen_lib::logging::Trap` (declared outside src/;
mirrored from its uses in the daemon and from spec section 7: FS,
InvalidInput, Missing, Scheduler, each carrying a message). -/
inductive Trap where
  | FS (msg : String)
  | InvalidInput (msg : String)
  | Missing (msg : String)
  | Scheduler (msg : String)
deriving DecidableEq, Repr

/-- Error type of `src/src/logging` as used by utils.rs (only the FS kind
appears there). -/
inductive ErrorType where
  | FS
deriving DecidableEq, Repr

/-- Model of `rensen_lib::config::GlobalConfig`: only its `hosts` path is read by the
embedded code (src/daemon/src/main.rs); the rest is carried opaquely. -/
structure GlobalConfig where
  hosts : String
deriving DecidableEq, Repr

/-- Per-host configuration (`host.config` in the source): destination root,
identifier used as a path segment, optional cron expression string. -/
structure HostConfig where
  destination : String
  identifier : String
  cron_schedule : Option String
deriving DecidableEq, Repr

/-- Model of `rensen_lib::config::Host`: hostname plus its configuration. -/
structure Host where
  hostname : String
  config : HostConfig
deriving DecidableEq, Repr

/-- Model of `rensen_lib::config::Settings`: the list of configured hosts. -/
structure Settings where
  hosts : List Host
deriving DecidableEq, Repr

/-! ## Task queue (src/daemon/src/daemon.rs lines 13-44)

`TaskQueue<T>` wraps a `VecDeque<T>`; the deque is modelled as the list of
its elements from front to back, `push_back` appends, `pop_front` removes
the head. -/

/-- Model of `TaskQueue<T>` of daemon.rs: a FIFO over `VecDeque`. -/
structure TaskQueue (T : Type) where
  tasks : List T
deriving DecidableEq, Repr

/-- Rust `TaskQueue::new`. -/
def TaskQueue.new {T : Type} : TaskQueue T := ⟨[]⟩

/-- Rust `TaskQueue::pushb`: `self.tasks.push_back(val)`. -/
def TaskQueue.pushb {T : Type} (q : TaskQueue T) (val : T) : TaskQueue T :=
  ⟨q.tasks ++ [val]⟩

/-- Rust `TaskQueue::popf`: `self.tasks.pop_front()` — returns the removed head
(if any) together with the mutated queue. -/
def TaskQueue.popf {T : Type} (q : TaskQueue T) : Option T × TaskQueue T :=
  match q.tasks with
  | [] => (none, q)
  | t :: ts => (some t, ⟨ts⟩)

/-- Rust `TaskQueue::is_empty`. -/
def TaskQueue.is_empty {T : Type} (q : TaskQueue T) : Bool :=
  q.tasks.isEmpty

/-- Rust `TaskQueue::len`. -/
def TaskQueue.len {T : Type} (q : TaskQueue T) : Nat :=
  q.tasks.length

/-- Rust `TaskQueue::peek`: `self.tasks.front()` — reads the head without
removing it. -/
def TaskQueue.peek {T : Type} (q : TaskQueue T) : Option T :=
  q.tasks.head?

/-- Popping a queue at most `fuel` times, front first. -/
def TaskQueue.drainAux {T : Type} : Nat → TaskQueue T → List T
  | 0, _ => []
  | fuel + 1, q =>
    match q.popf with
    | (none, _) => []
    | (some t, q2) => t :: TaskQueue.drainAux fuel q2

/-- Popping a queue to exhaustion, front first: the observable FIFO drain
order (`len` pops always suffice). -/
def TaskQueue.drain {T : Type} (q : TaskQueue T) : List T :=
  TaskQueue.drainAux q.len q

/-! ## Cron expression parsing (the `cron` crate)

`cron::Schedule::from_str` is an external dependency.  Its grammar, for the
expression shapes occurring in this repository, is: six or seven
whitespace-separated fields (seconds, minutes, hours, day-of-month, month,
day-of-week, optional year), each field either `*` or a numeric value in
range.  Five-field classic cron expressions are rejected (the crate
requires the seconds field; the repository's own test `test_cron` uses the
six-field form `* 0 0 * * *`).  Ranges, lists and step syntax do not occur
in the repository's expressions and are not modelled. -/

/-- A single cron field restricted to the forms used by the repository:
a wildcard or one numeric value. -/
inductive CronField where
  | star
  | num (n : Nat)
deriving DecidableEq, Repr

/-- The parsed fields of a cron schedule (the crate's `ScheduleFields`). -/
structure ScheduleFields where
  seconds : CronField
  minutes : CronField
  hours : CronField
  dom : CronField
  month : CronField
  dow : CronField
  year : Option CronField
deriving DecidableEq, Repr

/-- The decimal value of a nonempty all-digit character list. -/
def digitsToNat : List Char → Nat → Option Nat
  | [], acc => some acc
  | c :: cs, acc =>
    if c.isDigit then digitsToNat cs (acc * 10 + (c.toNat - 48)) else none

/-- Parse one cron field: `*`, or a decimal number within `lo..=hi`. -/
def parseField (lo hi : Nat) (w : List Char) : Option CronField :=
  if w = ['*'] then some CronField.star
  else if w = [] then none
  else
    match digitsToNat w 0 with
    | some n => if lo ≤ n ∧ n ≤ hi then some (CronField.num n) else none
    | none => none

/-- Split a character list into its whitespace-separated words (`cur` holds
the characters of the current word, reversed). -/
def splitWordsAux : List Char → List Char → List (List Char)
  | [], cur => if cur = [] then [] else [cur.reverse]
  | c :: cs, cur =>
    if c = ' ' then
      if cur = [] then splitWordsAux cs []
      else cur.reverse :: splitWordsAux cs []
    else splitWordsAux cs (c :: cur)

/-- The whitespace-separated fields of a cron expression string. -/
def cronWords (s : String) : List (List Char) :=
  splitWordsAux s.toList []

/-- Model of `cron::Schedule::from_str`, restricted to the grammar described above:
six or seven fields, each `*` or an in-range number; anything else is an
error. -/
def Schedule.from_str (s : String) : Except String ScheduleFields :=
  match cronWords s with
  | [se, mi, ho, dm, mo, dw] =>
    match parseField 0 59 se, parseField 0 59 mi, parseField 0 23 ho,
          parseField 1 31 dm, parseField 1 12 mo, parseField 0 7 dw with
    | some a, some b, some c, some d, some e, some f =>
      Except.ok ⟨a, b, c, d, e, f, none⟩
    | _, _, _, _, _, _ => Except.error "Invalid cron expression."
  | [se, mi, ho, dm, mo, dw, yr] =>
    match parseField 0 59 se, parseField 0 59 mi, parseField 0 23 ho,
          parseField 1 31 dm, parseField 1 12 mo, parseField 0 7 dw,
          parseField 1970 2099 yr with
    | some a, some b, some c, some d, some e, some f, some g =>
      Except.ok ⟨a, b, c, d, e, f, some g⟩
    | _, _, _, _, _, _, _ => Except.error "Invalid cron expression."
  | _ => Except.error "Invalid cron expression."

/-! ## parse_schedules (src/daemon/src/main.rs lines 17-51) -/

/-- Model of `WSchedule` of src/daemon/src/main.rs: a host with its parsed cron
schedule (daemon.rs names the same pairing `HostSchedule`). -/
structure WSchedule where
  host : Host
  schedule : ScheduleFields
deriving DecidableEq, Repr

/-- Outcome of running `parse_schedules`: either it returns `Ok(schedules)`
having emitted the given `log_trap` entries, or the process panicked
(`Result::unwrap` on an `Err`) after emitting them. -/
inductive ParseOutcome where
  | ok (schedules : List WSchedule) (logs : List Trap)
  | panicked (logs : List Trap)
deriving DecidableEq, Repr

/-- The loop body of `parse_schedules` over the remaining hosts, carrying
the schedules pushed so far and the traps logged so far (both in order). -/
def parse_schedulesGo : List Host → List WSchedule → List Trap → ParseOutcome
  | [], acc, logs => ParseOutcome.ok acc logs
  | host :: rest, acc, logs =>
    if host.hostname = "dummy" then
      -- Skip dummy host
      parse_schedulesGo rest acc logs
    else
      match host.config.cron_schedule with
      | some cron_schedule =>
        match Schedule.from_str cron_schedule with
        | Except.ok schedule =>
          parse_schedulesGo rest (acc ++ [⟨host, schedule⟩]) logs
        | Except.error err =>
          parse_schedulesGo rest acc
            (logs ++ [Trap.InvalidInput
              ("Invalid Cron Expression for `" ++ host.hostname ++ "`: " ++ err)])
      | none =>
        -- log_trap(Missing ...) runs first, then
        -- `Schedule::from_str("0 0 0 * *").unwrap()`: an Err here panics.
        let logs2 := logs ++ [Trap.Missing
          ("Missing cron_schedule for `" ++ host.hostname ++
            "`: Defaulting to `0 0 * * *`")]
        match Schedule.from_str "0 0 0 * *" with
        | Except.ok schedule =>
          parse_schedulesGo rest (acc ++ [⟨host, schedule⟩]) logs2
        | Except.error _ => ParseOutcome.panicked logs2

/-- Rust `parse_schedules` of src/daemon/src/main.rs. -/
def parse_schedules (_global_config : GlobalConfig) (settings : Settings) :
    ParseOutcome :=
  parse_schedulesGo settings.hosts [] []

/-! ## Scheduler due-check (src/daemon/src/daemon.rs lines 98-120)

`cron::Schedule::upcoming(Local)` yields the schedule's fire instants in
increasing order, starting strictly after the instant at which it is
called; `take(1).next()` is therefore the earliest fire instant strictly
after "now" (or `None` for a schedule with no further fire).  In
`run_scheduler` the call happens within the same tick in which `now` was
captured, so the model uses the tick's `now`.  A `HostSchedule` carries
that next-fire function as the semantics of its cron schedule. -/

/-- Minute truncation: `with_second(0).with_nanosecond(0)` on a
seconds-since-epoch instant. -/
def truncMin (t : Nat) : Nat := t - t % 60

/-- Model of `HostSchedule` of daemon.rs: a host plus its schedule, the latter
represented by its upcoming-fire function (`next t` = earliest fire
strictly after `t`, if any). -/
structure HostSchedule where
  host : Host
  next : Nat → Option Nat

/-- Next-fire function of the midnight-daily schedule (fires exactly at the
instants divisible by 86400): the least multiple of 86400 strictly after
`now`.  This is the crate semantics of the six-field expression
`0 0 0 * * *`. -/
def midnightDailyNext (now : Nat) : Option Nat :=
  some ((now / 86400 + 1) * 86400)

/-- Next-fire function of the every-second schedule `* * * * * *` (fires at
every whole second): the next second. -/
def everySecondNext (now : Nat) : Option Nat :=
  some (now + 1)

/-- Rust `BackupScheduler::should_run` (daemon.rs lines 100-120): truncate the
current time to the minute, take the single next upcoming fire instant
(strictly after now), truncate it likewise, and compare for equality; a
schedule with no upcoming instant is never due. -/
def should_run (now : Nat) (host_schedule : HostSchedule) : Bool :=
  let current_time := truncMin now
  match host_schedule.next now with
  | some scheduled_time => current_time == truncMin scheduled_time
  | none => false

/-- Follows the spec's words (section 4.1): "compute the next scheduled
time strictly after 'now minus resolution', truncate both the current time
and the scheduled time to minute resolution, and compare for equality"
(resolution = 60 seconds). -/
def should_run_specVersion (now : Nat) (host_schedule : HostSchedule) : Bool :=
  match host_schedule.next (now - 60) with
  | some scheduled_time => truncMin now == truncMin scheduled_time
  | none => false

/-! ## Scheduler loop body (src/daemon/src/daemon.rs lines 125-152) -/

/-- Model of `BackupTask` of daemon.rs: the unit "back up host H". -/
structure BackupTask where
  global_config : GlobalConfig
  host : Host
deriving DecidableEq, Repr

/-- Model of `BackupScheduler` of daemon.rs: configuration, settings, schedules, and
its (declared) task queue. -/
structure BackupScheduler where
  global_config : GlobalConfig
  settings : Settings
  schedules : List HostSchedule
  queue : TaskQueue BackupTask

/-- One iteration of the `loop` in `run_scheduler`, after `interval.tick()`
returns at instant `now`: iterate over the schedules; for each due host
construct a `BackupTask` and `tokio::spawn` it (modelled by appending the
task to the returned spawned list).  The result is the scheduler state
after the iteration together with the tasks spawned during it. -/
def run_scheduler_tick (sch : BackupScheduler) (now : Nat) :
    BackupScheduler × List BackupTask :=
  sch.schedules.foldl
    (fun st host_schedule =>
      if should_run now host_schedule then
        let backup_task : BackupTask :=
          { global_config := sch.global_config, host := host_schedule.host }
        (st.1, st.2 ++ [backup_task])
      else st)
    (sch, [])

/-- The tasks for the hosts due at `now`, in schedule order. -/
def dueTasks (sch : BackupScheduler) (now : Nat) : List BackupTask :=
  (sch.schedules.filter (fun hs => should_run now hs)).map
    (fun hs => { global_config := sch.global_config, host := hs.host })

/-! ## Interleaving model for task execution

A spawned `BackupTask` runs until it finishes; the daemon imposes no
per-host mutual exclusion (daemon.rs spawns immediately).  The state below
tracks the multiset of running tasks; a trace interleaves scheduler ticks
with task completions arbitrarily. -/

/-- A scheduler state together with the tasks currently running. -/
structure ExecState where
  sched : BackupScheduler
  running : List BackupTask

/-- An event of the interleaving model: a scheduler tick at a given
instant, or the completion of the i-th currently running task. -/
inductive DaemonEvent where
  | tick (now : Nat)
  | finish (i : Nat)

/-- One step of the interleaving model: a tick spawns the due tasks
(daemon.rs lines 136-149), a finish removes one running task. -/
def ExecState.step (s : ExecState) : DaemonEvent → ExecState
  | DaemonEvent.tick now =>
    let r := run_scheduler_tick s.sched now
    { sched := r.1, running := s.running ++ r.2 }
  | DaemonEvent.finish i =>
    { s with running := s.running.eraseIdx i }

/-- Run a trace of events from a state. -/
def ExecState.runTrace (s : ExecState) (events : List DaemonEvent) : ExecState :=
  events.foldl ExecState.step s

/-- Number of currently running backup tasks for the named host. -/
def runningFor (hname : String) (s : ExecState) : Nat :=
  s.running.countP (fun t => t.host.hostname == hname)

/-- Number of schedules for the named host that are due at `now`. -/
def countDueFor (hname : String) (sch : BackupScheduler) (now : Nat) : Nat :=
  ((sch.schedules.filter (fun hs => should_run now hs)).filter
    (fun hs => hs.host.hostname == hname)).length

/-! ## Record store and BackupTask::run (src/daemon/src/daemon.rs lines 60-84) -/

/-- Model of `rensen_lib::record::Record`: the per-host ledger mapping relative file
path to fingerprint data (a u64 in the serialized form used by
src/src/main.rs). -/
structure Record where
  entries : List (String × Nat)
deriving DecidableEq, Repr

/-- The state of a host's record file on disk. -/
inductive RecordFile where
  | missing
  | corrupt
  | valid (r : Record)
deriving DecidableEq, Repr

/-- Modelled from the spec: `Record::deserialize_json` lives in
`rensen_lib::record`, which is not under src/; spec section 4.5 gives its
contract — "`load(path) -> Record`: fails with a FS error if the file is
missing or malformed".  A missing file and a corrupt file both yield an
error; a well-formed file yields its record. -/
def Record.deserialize_json : RecordFile → Except String Record
  | RecordFile.missing => Except.error "No such file or directory (os error 2)"
  | RecordFile.corrupt => Except.error "malformed record JSON"
  | RecordFile.valid r => Except.ok r

/-- Rust `PathBuf::join` with a relative right component. -/
def pathJoin (a b : String) : String := a ++ "/" ++ b

/-- The record path computed by `BackupTask::run`:
`destination/identifier/.records/record.json`. -/
def record_pathOf (host_config : HostConfig) : String :=
  pathJoin (pathJoin (pathJoin host_config.destination host_config.identifier)
    ".records") "record.json"

/-- Rust `BackupTask::run` (daemon.rs lines 63-83): read the record file,
mapping every deserialization error to `Trap::FS` and propagating it with
`?`; on success hand the record to the sftp backup run.  `fs` gives the
on-disk state of each path; `sftp_backup` abstracts
`Sftp::new(host_config, global_config, record, true).backup()`, the
external transfer run of `rensen_lib::backup` (not under src/). -/
def BackupTask.run (task : BackupTask) (fs : String → RecordFile)
    (sftp_backup : Record → Except Trap Unit) : Except Trap Unit :=
  let hostname := task.host.hostname
  let host_config := task.host.config
  let record_path := record_pathOf host_config
  match Record.deserialize_json (fs record_path) with
  | Except.error err =>
    Except.error (Trap.FS
      ("Could not read record for host `" ++ hostname ++ "`: " ++ err))
  | Except.ok record => sftp_backup record

/-! ## hash_file (src/src/utils.rs lines 100-126)

File contents are a list of bytes; opening and seeking cannot fail on a
readable file, and a single `file.read(&mut buffer)` on a regular local
file fills the buffer with the bytes at the cursor up to end-of-file, so
`bytes_read = min 1024 (length - pos)` (zero when the seek position is at
or past the end).  The sha3 crate's digest is a parameter `sha3_256` from
bytes to bytes; `format!("{:x}", digest)` prints each digest byte as two
lowercase hexadecimal digits. -/

/-- One lowercase hexadecimal digit. -/
def hexDigit (n : Nat) : Char :=
  if n < 10 then Char.ofNat (48 + n) else Char.ofNat (87 + n)

/-- The two lowercase hexadecimal digits of one byte (`%02x`). -/
def hexByte (b : Nat) : List Char :=
  [hexDigit (b / 16 % 16), hexDigit (b % 16)]

/-- Rendering `format!("{:x}", sha3_256.finalize())`: the digest bytes in order, each
as two lowercase hexadecimal digits. -/
def hexLower (bs : List Nat) : String :=
  ⟨bs.foldr (fun b acc => hexByte b ++ acc) []⟩

/-- The sixteen characters a lowercase hexadecimal rendering may use. -/
def isLowerHexChar (c : Char) : Bool :=
  "0123456789abcdef".toList.contains c

/-- Rust `hash_file` (utils.rs lines 101-126): seek to `pos`, read once into a
1024-byte zeroed buffer, feed `buffer[..bytes_read]` to the hasher, and
render the digest in lowercase hex. -/
def hash_file (sha3_256 : List Nat → List Nat) (contents : List Nat)
    (pos : Nat) : Except ErrorType String :=
  -- let mut buffer = [0; 1024]; bytes_read = file.read(&mut buffer)
  let bytes_read := min 1024 (contents.length - pos)
  let buffer := (contents.drop pos).take bytes_read ++
    List.replicate (1024 - bytes_read) 0
  -- sha3_256.update(&buffer[..bytes_read])
  Except.ok (hexLower (sha3_256 (buffer.take bytes_read)))

/-! ## set_metadata (src/src/utils.rs lines 21-40)

The local file's metadata is the quadruple below; each fallible call whose
`Result` the source discards with `let _ =` is driven by a Boolean of the
outcome oracle (`true` = the call succeeded).  `std::fs::FileTimes` is a
`Copy` builder whose setters return a new value; the source discards those
return values, so the builder passed to `set_times` still has no time
set. -/

/-- Model of `ssh2::FileStat` as used by `set_metadata` (uid/gid are never read). -/
structure FileStat where
  size : Option Nat
  perm : Option Nat
  atime : Option Nat
  mtime : Option Nat
deriving DecidableEq, Repr

/-- Metadata of the local file being written. -/
structure LocalFile where
  len : Nat
  perm : Nat
  accessed : Nat
  modified : Nat
deriving DecidableEq, Repr

/-- Success/failure of each fallible call inside `set_metadata`. -/
structure MetaOutcome where
  set_len_ok : Bool
  set_permissions_ok : Bool
  set_times_ok : Bool
  set_modified_ok : Bool
deriving DecidableEq, Repr

/-- Model of `std::fs::FileTimes`: an accessed/modified pair, both initially
unset. -/
structure FileTimes where
  accessed : Option Nat
  modified : Option Nat
deriving DecidableEq, Repr

/-- Rust `FileTimes::new`. -/
def FileTimes.new : FileTimes := ⟨none, none⟩

/-- Rust `FileTimes::set_accessed`: by-value builder, returns the updated
copy. -/
def FileTimes.set_accessed (ft : FileTimes) (t : Nat) : FileTimes :=
  { ft with accessed := some t }

/-- Rust `FileTimes::set_modified`: by-value builder, returns the updated
copy. -/
def FileTimes.set_modified (ft : FileTimes) (t : Nat) : FileTimes :=
  { ft with modified := some t }

/-- Rust `set_metadata` (utils.rs lines 22-40): set length from
`stat.size.unwrap_or(0)`, permissions when present, then times via a
`FileTimes` builder whose setter results are discarded, then the modified
time again directly; every call's failure is discarded and the function
returns `Ok(())`. -/
def set_metadata (outcome : MetaOutcome) (file : LocalFile) (stat : FileStat) :
    Except ErrorType Unit × LocalFile :=
  -- let _ = file.set_len(stat.size.unwrap_or(0));
  let file1 := if outcome.set_len_ok then { file with len := stat.size.getD 0 }
    else file
  -- if let Some(raw_perms) = stat.perm { let _ = file.set_permissions(..) }
  let file2 := match stat.perm with
    | some raw_perms =>
      if outcome.set_permissions_ok then { file1 with perm := raw_perms }
      else file1
    | none => file1
  -- let file_times = fs::FileTimes::new();
  -- file_times.set_accessed(..); file_times.set_modified(..);
  -- (FileTimes is Copy: both builder results are discarded)
  let file_times := FileTimes.new
  let _ := file_times.set_accessed (stat.atime.getD 0)
  let _ := file_times.set_modified (stat.mtime.getD 0)
  -- let _ = file.set_times(file_times);  (file_times has nothing set)
  let file3 := if outcome.set_times_ok then
    { file2 with
      accessed := file_times.accessed.getD file2.accessed,
      modified := file_times.modified.getD file2.modified }
    else file2
  -- let _ = file.set_modified(UNIX_EPOCH + mtime.unwrap_or(0));
  let file4 := if outcome.set_modified_ok then
    { file3 with modified := stat.mtime.getD 0 }
    else file3
  (Except.ok (), file4)

/-! ## archive_compress_dir (src/src/utils.rs lines 42-67)

The filesystem facts the claim is about: whether the temporary tar file
exists, whether the compressed output has been written, and whether the
source directory still exists.  Every fallible call is driven by the
outcome oracle; calls followed by `?` propagate their failure, while the
final `fs::remove_dir_all(path)` is wrapped in `let _ =` and its failure is
discarded. -/

/-- The filesystem facts tracked across `archive_compress_dir`. -/
structure ArchiveFs where
  tmpTarExists : Bool
  outputExists : Bool
  srcDirExists : Bool
deriving DecidableEq, Repr

/-- Success/failure of each fallible call inside `archive_compress_dir`. -/
structure ArchiveOutcome where
  create_tar_ok : Bool
  append_ok : Bool
  finish_ok : Bool
  open_tar_ok : Bool
  create_gz_ok : Bool
  copy_ok : Bool
  remove_tar_ok : Bool
  remove_dir_ok : Bool
deriving DecidableEq, Repr

/-- Rust `archive_compress_dir` (utils.rs lines 44-67): create `temp.tar`, tar
the directory into it, gzip-copy it to the output path, remove the
temporary tar (failure propagated with `?`), then — unless the path is the
filesystem root `/` — attempt `remove_dir_all` on the source directory,
discarding its result. -/
def archive_compress_dir (outcome : ArchiveOutcome) (path : String)
    (fs : ArchiveFs) : Except ErrorType Unit × ArchiveFs :=
  -- let tar_file = File::create("temp.tar")?;
  if !outcome.create_tar_ok then (Except.error ErrorType.FS, fs)
  else
    let fs1 := { fs with tmpTarExists := true }
    -- add_dir_contents_to_tar(..)?; tar_builder.finish()?;
    if !(outcome.append_ok && outcome.finish_ok) then
      (Except.error ErrorType.FS, fs1)
    -- let tar_file = File::open("temp.tar")?;
    else if !outcome.open_tar_ok then (Except.error ErrorType.FS, fs1)
    -- let gz_file = File::create(output_file_path)?;
    else if !outcome.create_gz_ok then (Except.error ErrorType.FS, fs1)
    else
      let fs2 := { fs1 with outputExists := true }
      -- io::copy(..)?;
      if !outcome.copy_ok then (Except.error ErrorType.FS, fs2)
      -- fs::remove_file("temp.tar")?;
      else if !outcome.remove_tar_ok then (Except.error ErrorType.FS, fs2)
      else
        let fs3 := { fs2 with tmpTarExists := false }
        -- if path != Path::new("/") { let _ = fs::remove_dir_all(path); }
        let fs4 := if path ≠ "/" ∧ outcome.remove_dir_ok then
          { fs3 with srcDirExists := false }
          else fs3
        (Except.ok (), fs4)

/-! ## Concrete instances used by the claim theorems -/

/-- A global configuration as loaded by the daemon. -/
def gcDemo : GlobalConfig := ⟨"/etc/rensen/hosts.yml"⟩

/-- A host with no cron expression configured. -/
def hostAlphaNoCron : Host := ⟨"alpha", ⟨"/backups", "alpha-id", none⟩⟩

/-- A host whose configured cron expression does not parse. -/
def hostBetaBadCron : Host := ⟨"beta", ⟨"/backups", "beta-id", some "not a cron"⟩⟩

/-- A host with the valid six-field midnight-daily expression. -/
def hostGammaMidnight : Host :=
  ⟨"gamma", ⟨"/backups", "gamma-id", some "0 0 0 * * *"⟩⟩

/-- A host with the valid every-second expression (the repository's own
test uses the second-wildcard form). -/
def hostAlphaEverySec : Host :=
  ⟨"alpha", ⟨"/backups", "alpha-id", some "* * * * * *"⟩⟩

/-- The parsed fields of `0 0 0 * * *`. -/
def midnightFields : ScheduleFields :=
  ⟨CronField.num 0, CronField.num 0, CronField.num 0,
    CronField.star, CronField.star, CronField.star, none⟩

/-- The every-second host paired with its schedule semantics. -/
def alphaEverySecSchedule : HostSchedule := ⟨hostAlphaEverySec, everySecondNext⟩

/-- The midnight host paired with its schedule semantics. -/
def gammaMidnightSchedule : HostSchedule := ⟨hostGammaMidnight, midnightDailyNext⟩

/-- A scheduler over the single every-second host, with an empty queue. -/
def schedDemo : BackupScheduler :=
  ⟨gcDemo, ⟨[hostAlphaEverySec]⟩, [alphaEverySecSchedule], TaskQueue.new⟩

/-- 2024-01-01T00:00:00Z as seconds since the Unix epoch (a midnight, so it
is divisible by 86400). -/
def t2024 : Nat := 1704067200

/-- A stand-in digest function for instantiating `hash_file` theorems at a
concrete point (one byte, 0xab). -/
def sha3Stub : List Nat → List Nat := fun _ => [171]

/-- Outcome oracle: only `set_len` succeeds. -/
def metaLenOnly : MetaOutcome := ⟨true, false, false, false⟩

/-- A local file with nonzero metadata. -/
def fileDemo : LocalFile := ⟨5, 7, 9, 11⟩

/-- A FileStat carrying no values at all. -/
def statEmpty : FileStat := ⟨none, none, none, none⟩

/-- Archive outcome: every call succeeds. -/
def archiveAllOk : ArchiveOutcome :=
  ⟨true, true, true, true, true, true, true, true⟩

/-- Archive outcome: everything succeeds except `remove_dir_all`, whose
result the source discards. -/
def archiveNoRmDir : ArchiveOutcome :=
  ⟨true, true, true, true, true, true, true, false⟩

/-- Initial filesystem for the archive claims: source directory present,
no temporary tar, no output. -/
def afsStart : ArchiveFs := ⟨false, false, true⟩

end Rensen

namespace Rensen

/-! # Theorems -/

/-! ## Supporting lemmas -/

/-- The fold inside `run_scheduler_tick` never touches its first component
and appends exactly the due hosts' tasks to its second. -/
lemma run_scheduler_tick_foldl (sch : BackupScheduler) (now : Nat) :
    ∀ (l : List HostSchedule) (p : BackupScheduler × List BackupTask),
      l.foldl
        (fun st host_schedule =>
          if should_run now host_schedule then
            (st.1, st.2 ++
              [{ global_config := sch.global_config,
                 host := host_schedule.host }])
          else st) p
      = (p.1, p.2 ++ (l.filter (fun hs => should_run now hs)).map
          (fun hs => { global_config := sch.global_config, host := hs.host })) := by
  intro l
  induction l with
  | nil => intro p; simp
  | cons hs rest ih =>
    intro p
    by_cases h : should_run now hs
    · simp only [List.foldl_cons, if_pos h, ih, List.filter_cons_of_pos h,
        List.map_cons, List.append_assoc, List.singleton_append]
    · simp only [List.foldl_cons, if_neg h, ih,
        List.filter_cons_of_neg h]

/-- One scheduler tick returns the scheduler unchanged, paired with the due
hosts' tasks. -/
lemma run_scheduler_tick_eq (sch : BackupScheduler) (now : Nat) :
    run_scheduler_tick sch now = (sch, dueTasks sch now) := by
  unfold run_scheduler_tick dueTasks
  rw [run_scheduler_tick_foldl sch now sch.schedules (sch, [])]
  simp

/-! ## C1: does the scheduler enqueue, or spawn directly? -/

/-- C1 counterexample: at a tick at which the (single) host is due, the
scheduling loop spawns a backup task immediately and pushes nothing onto
the task queue — the queue is empty after the tick while the spawned list
is not.  This falsifies the claim that the scheduler "constructs a Backup
Task and pushes it onto the Task Queue's tail; it does not execute or
spawn the task directly from the scheduling loop". -/
theorem C1_counterexample :
    should_run 7 alphaEverySecSchedule = true
    ∧ (run_scheduler_tick schedDemo 7).1.queue.tasks = []
    ∧ (run_scheduler_tick schedDemo 7).2 ≠ [] := by
  refine ⟨rfl, rfl, ?_⟩
  decide

/-- C1 (amended): for every scheduler tick, the scheduling loop constructs
a Backup Task for each due host and spawns it directly (the spawned tasks
are exactly the due hosts' tasks, in schedule order); the Task Queue is
left unchanged — nothing is ever pushed onto it by the scheduling loop. -/
theorem C1_tick_spawns_directly (sch : BackupScheduler) (now : Nat) :
    (run_scheduler_tick sch now).1.queue = sch.queue
    ∧ (run_scheduler_tick sch now).2 = dueTasks sch now := by
  rw [run_scheduler_tick_eq]
  exact ⟨rfl, rfl⟩

/-! ## C2: at-most-one-in-flight per host? -/

/-- C2 counterexample: the trace that ticks at second 7 and again at second
67 (one scheduler interval later), with the first task still running, ends
with two backup tasks for host `alpha` concurrently in the running state.
This falsifies the claim that no two Backup Tasks for a host are ever
concurrently running. -/
theorem C2_counterexample :
    runningFor "alpha"
      (ExecState.runTrace ⟨schedDemo, []⟩
        [DaemonEvent.tick 7, DaemonEvent.tick 67]) = 2 := by
  rfl

/-- C2 (amended): the scheduling loop imposes no per-host mutual
exclusion: a tick adds one running task for host H per due schedule of H,
regardless of how many tasks for H are already running — so a later task
for H starts even while an earlier one is still running whenever H is due
again before it finishes. -/
theorem C2_tick_adds_running (s : ExecState) (now : Nat) (hname : String) :
    runningFor hname (s.step (DaemonEvent.tick now))
      = runningFor hname s + countDueFor hname s.sched now := by
  simp only [ExecState.step, runningFor, countDueFor]
  rw [run_scheduler_tick_eq]
  simp only [dueTasks, List.countP_append, List.countP_map,
    List.countP_eq_length_filter]
  simp [List.filter_append, List.filter_map, Function.comp]

/-! ## Grounding the schedule semantics

These lemmas justify that `midnightDailyNext` and `everySecondNext` are the
upcoming-fire functions of the schedules firing at every instant divisible
by 86400 (midnight daily, the crate's `0 0 0 * * *`) and at every whole
second (`* * * * * *`): each returns the least fire instant strictly after
its argument. -/

/-- Value `midnightDailyNext now` is the least multiple of 86400 strictly after
`now`. -/
lemma midnightDailyNext_least (now : Nat) :
    ∃ t, midnightDailyNext now = some t ∧ now < t ∧ t % 86400 = 0
      ∧ ∀ u, now < u → u % 86400 = 0 → t ≤ u := by
  refine ⟨(now / 86400 + 1) * 86400, rfl, ?_, ?_, ?_⟩
  · have h1 := Nat.div_add_mod now 86400
    have h2 : now % 86400 < 86400 := Nat.mod_lt _ (by norm_num)
    omega
  · exact Nat.mul_mod_left _ _
  · intro u hu hmod
    have h1 := Nat.div_add_mod now 86400
    have h3 := Nat.div_add_mod u 86400
    have h2 : now % 86400 < 86400 := Nat.mod_lt _ (by norm_num)
    have h4 : now / 86400 < u / 86400 := by omega
    calc (now / 86400 + 1) * 86400 ≤ (u / 86400) * 86400 :=
          Nat.mul_le_mul_right _ h4
    _ ≤ u := by omega

/-- Value `everySecondNext now` is the least whole second strictly after
`now`. -/
lemma everySecondNext_least (now : Nat) :
    everySecondNext now = some (now + 1)
      ∧ now < now + 1 ∧ ∀ u, now < u → now + 1 ≤ u := by
  exact ⟨rfl, Nat.lt_succ_self now, fun u hu => hu⟩

/-! ## C3: cron parse failure — fallback or exclusion? -/

/-- C3: for a host whose configured cron expression fails to parse, the
failure is indeed reported via the InvalidInput variant of the error
taxonomy and the remaining hosts are still scheduled, but the failing host
is excluded from the returned schedule list — it does NOT fall back to a
default daily schedule (the fallback branch of `parse_schedules` is taken
only when the expression is absent, despite the comment above it reading
"Defaults cron to midnight every day if parsing fails").  Evaluated on a
two-host list: the host `beta` with expression `not a cron` followed by the
host `gamma` with the valid expression `0 0 0 * * *`. -/
theorem C3_invalid_cron_excludes_host :
    parse_schedules gcDemo ⟨[hostBetaBadCron, hostGammaMidnight]⟩
      = ParseOutcome.ok [⟨hostGammaMidnight, midnightFields⟩]
          [Trap.InvalidInput
            "Invalid Cron Expression for `beta`: Invalid cron expression."] := by
  rfl

/-! ## C4: missing record file at the start of a backup run -/

/-- C4: `BackupTask::run` maps every `deserialize_json` failure to
`Trap::FS` and aborts the task with `?`, so a MISSING record file blocks
the run exactly like a corrupt one — the task does not substitute an empty
Record and proceed.  Evaluated on the task for host `alpha`: with the
record file missing the run fails with the FS trap; with a corrupt record
file it fails the same way; only with a readable well-formed record file
does the run proceed to the transfer phase. -/
theorem C4_missing_record_blocks_run :
    BackupTask.run ⟨gcDemo, hostAlphaNoCron⟩ (fun _ => RecordFile.missing)
        (fun _ => Except.ok ())
      = Except.error (Trap.FS
          "Could not read record for host `alpha`: No such file or directory (os error 2)")
    ∧ BackupTask.run ⟨gcDemo, hostAlphaNoCron⟩ (fun _ => RecordFile.corrupt)
        (fun _ => Except.ok ())
      = Except.error (Trap.FS
          "Could not read record for host `alpha`: malformed record JSON")
    ∧ BackupTask.run ⟨gcDemo, hostAlphaNoCron⟩
        (fun _ => RecordFile.valid ⟨[]⟩) (fun _ => Except.ok ())
      = Except.ok () := by
  exact ⟨rfl, rfl, rfl⟩

/-! ## C5: the due-check at 2024-01-01T00:00:07Z -/

/-- C5: at current time 2024-01-01T00:00:07Z (seven seconds past a
midnight) the code's due-check is NOT due for the midnight-daily schedule:
`upcoming` starts strictly after now, so the next fire instant is the NEXT
day's midnight, whose minute truncation differs from the current minute.
The spec's own algorithm — next fire strictly after "now minus resolution"
(60 s), both sides truncated to the minute — IS due at that instant, as
the claim demands.  Moreover the claim's five-field expression
`0 0 * * *` is not even accepted by the cron crate (six or seven fields
required); the crate form of midnight daily is `0 0 0 * * *`. -/
theorem C5_should_run_not_due_at_7s :
    should_run (t2024 + 7) gammaMidnightSchedule = false
    ∧ should_run_specVersion (t2024 + 7) gammaMidnightSchedule = true
    ∧ Schedule.from_str "0 0 * * *"
        = Except.error "Invalid cron expression."
    ∧ Schedule.from_str "0 0 0 * * *" = Except.ok midnightFields := by
  refine ⟨?_, ?_, rfl, rfl⟩
  · decide
  · decide

/-! ## C6: missing cron expression — default schedule or panic? -/

/-- C6: for a host with no cron expression, `parse_schedules` does log the
Missing warning first, but then calls
`Schedule::from_str("0 0 0 * *").unwrap()`: the five-field string (which
differs from the logged default `0 0 * * *`) is rejected by the cron crate
(six or seven fields required), so the unwrap panics — the host is never
pushed with any schedule and `parse_schedules` never returns. -/
theorem C6_missing_cron_panics :
    parse_schedules gcDemo ⟨[hostAlphaNoCron]⟩
      = ParseOutcome.panicked
          [Trap.Missing
            "Missing cron_schedule for `alpha`: Defaulting to `0 0 * * *`"]
    ∧ Schedule.from_str "0 0 0 * *"
        = Except.error "Invalid cron expression." := by
  exact ⟨rfl, rfl⟩

/-! ## C7: hash_file hashes the 1024-byte window at the offset -/

/-- Every lowercase hexadecimal digit of a value below 16 is one of the
sixteen lowercase hex characters. -/
lemma hexDigit_isHex : ∀ n, n < 16 → isLowerHexChar (hexDigit n) = true := by
  decide

/-- Both characters printed for a byte are lowercase hex characters. -/
lemma hexByte_isHex (b : Nat) : ∀ c ∈ hexByte b, isLowerHexChar c = true := by
  intro c hc
  simp only [hexByte, List.mem_cons, List.not_mem_nil, or_false] at hc
  rcases hc with h | h <;> subst h <;>
    exact hexDigit_isHex _ (Nat.mod_lt _ (by norm_num))

/-- Every character of `hexLower` output is a lowercase hex character. -/
lemma hexLower_isHex (bs : List Nat) :
    ∀ c ∈ (hexLower bs).toList, isLowerHexChar c = true := by
  induction bs with
  | nil => intro c hc; simp [hexLower, String.toList] at hc
  | cons b rest ih =>
    intro c hc
    have hsplit : (hexLower (b :: rest)).toList
        = hexByte b ++ (hexLower rest).toList := rfl
    rw [hsplit] at hc
    rcases List.mem_append.mp hc with h | h
    · exact hexByte_isHex b c h
    · exact ih c h

/-- The slice `buffer[..bytes_read]` of the zero-padded read buffer equals
the (clipped) 1024-byte window of the contents at `pos`. -/
lemma buffer_slice_eq_window (contents : List Nat) (pos : Nat) :
    ((contents.drop pos).take (min 1024 (contents.length - pos)) ++
        List.replicate (1024 - min 1024 (contents.length - pos)) 0).take
          (min 1024 (contents.length - pos))
      = (contents.drop pos).take 1024 := by
  have h1 : ((contents.drop pos).take (min 1024 (contents.length - pos))).length
      = min 1024 (contents.length - pos) := by
    simp only [List.length_take, List.length_drop]
    omega
  rw [List.take_append_eq_append_take, h1, Nat.sub_self, List.take_zero,
    List.append_nil, List.take_take]
  rw [List.take_eq_take]
  simp only [List.length_drop]
  omega

/-- C7: for every file content, digest function and byte offset,
`hash_file` returns Ok of the lowercase-hex rendering of the digest of the
1024-byte window of the contents starting at byte `pos` (clipped at
end-of-file) — a fixed-size window hash, not a whole-file hash — and every
character of that rendering is a lowercase hexadecimal character. -/
theorem C7_hash_file_window (sha3_256 : List Nat → List Nat)
    (contents : List Nat) (pos : Nat) :
    hash_file sha3_256 contents pos
      = Except.ok (hexLower (sha3_256 ((contents.drop pos).take 1024)))
    ∧ ∀ c ∈ (hexLower (sha3_256 ((contents.drop pos).take 1024))).toList,
        isLowerHexChar c = true := by
  constructor
  · simp only [hash_file]
    rw [buffer_slice_eq_window]
  · exact hexLower_isHex _

/-- C7 witness: at the one-byte digest stub, contents `[1, 2, 3]` and
offset 1, the hash is the two lowercase hex digits `ab`, and `a` is a
lowercase hex character. -/
theorem C7_witness :
    hash_file sha3Stub [1, 2, 3] 1 = Except.ok "ab"
    ∧ isLowerHexChar 'a' = true := by
  have h := C7_hash_file_window sha3Stub [1, 2, 3] 1
  constructor
  · rw [h.1]; rfl
  · exact h.2 'a' (by decide)

/-! ## C8: the task queue is FIFO -/

/-- Folding `pushb` over a list appends it behind the existing tasks. -/
lemma foldl_pushb_tasks {T : Type} :
    ∀ (l : List T) (q : TaskQueue T),
      (l.foldl TaskQueue.pushb q).tasks = q.tasks ++ l := by
  intro l
  induction l with
  | nil => intro q; simp
  | cons a as ih =>
    intro q
    simp [List.foldl_cons, ih, TaskQueue.pushb]

/-- Draining a queue by repeated `popf` yields its tasks front first. -/
lemma drain_tasks {T : Type} : ∀ (ts : List T), TaskQueue.drain ⟨ts⟩ = ts := by
  intro ts
  induction ts with
  | nil => rfl
  | cons a as ih =>
    show a :: TaskQueue.drainAux as.length ⟨as⟩ = a :: as
    rw [show TaskQueue.drainAux as.length ⟨as⟩ = TaskQueue.drain ⟨as⟩ from rfl,
      ih]

/-- C8: the task queue is FIFO.  For every sequence of pushes into the
fresh queue, draining by repeated `popf` returns exactly that sequence in
insertion order; `pushb` enqueues at the tail; `popf` on the empty queue
returns `none` (without blocking — it is a total function) and leaves the
queue empty; `peek` returns exactly the element `popf` would remove, while
taking the queue immutably (it returns only the head, not a new queue);
and pushing `H1`, `H2`, `H1` pops `H1` then `H2` then `H1`. -/
theorem C8_taskqueue_fifo (l : List String) (q : TaskQueue String)
    (v : String) :
    TaskQueue.drain (l.foldl TaskQueue.pushb TaskQueue.new) = l
    ∧ (TaskQueue.pushb q v).tasks = q.tasks ++ [v]
    ∧ TaskQueue.popf (TaskQueue.new : TaskQueue String)
        = (none, TaskQueue.new)
    ∧ (TaskQueue.popf q).1 = TaskQueue.peek q
    ∧ TaskQueue.drain
        (((TaskQueue.new.pushb "H1").pushb "H2").pushb "H1")
        = ["H1", "H2", "H1"] := by
  refine ⟨?_, rfl, rfl, ?_, ?_⟩
  · have h : (l.foldl TaskQueue.pushb (TaskQueue.new : TaskQueue String))
        = ⟨l⟩ := by
      have := foldl_pushb_tasks l (TaskQueue.new : TaskQueue String)
      cases hq : l.foldl TaskQueue.pushb (TaskQueue.new : TaskQueue String)
      simp_all [TaskQueue.new]
    rw [h, drain_tasks]
  · cases q with
    | mk ts => cases ts <;> rfl
  · rw [show (((TaskQueue.new.pushb "H1").pushb "H2").pushb "H1"
        : TaskQueue String) = ⟨["H1", "H2", "H1"]⟩ from rfl, drain_tasks]

/-! ## C9: set_metadata always returns Ok and truncates on absent size -/

/-- C9: `set_metadata` returns `Ok(())` for every outcome of its inner
calls, every file and every stat — each inner failure is discarded with
`let _ =` — and when the stat carries no size, the (successful) `set_len`
call truncates the file to length 0 rather than leaving it unchanged or
reporting an error. -/
theorem C9_set_metadata_ok (outcome : MetaOutcome) (file : LocalFile)
    (stat : FileStat) :
    (set_metadata outcome file stat).1 = Except.ok ()
    ∧ (stat.size = none → outcome.set_len_ok = true →
        (set_metadata outcome file stat).2.len = 0) := by
  constructor
  · rfl
  · intro h1 h2
    cases outcome with
    | mk slen sperm stimes smod =>
      cases stat with
      | mk ssize sp sa sm =>
        simp only at h1 h2
        subst h1
        subst h2
        cases sp <;> cases sperm <;> cases stimes <;> cases smod <;> rfl

/-- C9 witness: with only `set_len` succeeding, a file of length 5 and a
stat carrying nothing, `set_metadata` returns Ok and the file length
becomes 0. -/
theorem C9_witness :
    (set_metadata metaLenOnly fileDemo statEmpty).1 = Except.ok ()
    ∧ (set_metadata metaLenOnly fileDemo statEmpty).2.len = 0 :=
  ⟨(C9_set_metadata_ok metaLenOnly fileDemo statEmpty).1,
   (C9_set_metadata_ok metaLenOnly fileDemo statEmpty).2 rfl rfl⟩

/-! ## C10: what is guaranteed after archive_compress_dir succeeds -/

/-- C10 counterexample: with every call succeeding except
`remove_dir_all` — whose result the source discards with `let _ =` —
`archive_compress_dir` on the non-root directory `data` returns Ok while
the source directory still exists.  This falsifies the claim that after
success the source directory has been recursively deleted (for every path
except `/`). -/
theorem C10_counterexample :
    (archive_compress_dir archiveNoRmDir "data" afsStart).1 = Except.ok ()
    ∧ (archive_compress_dir archiveNoRmDir "data" afsStart).2.srcDirExists
        = true
    ∧ ("data" : String) ≠ "/" := by
  refine ⟨rfl, rfl, by decide⟩

/-- C10 (amended): after `archive_compress_dir(path, output)` succeeds,
the compressed container has been written at the output path and the
temporary tar file has been removed; the recursive deletion of the source
directory is only ATTEMPTED — it is skipped entirely for the filesystem
root `/` (never deleted), and its failure is silently ignored, so the
source directory is guaranteed gone only when that removal itself
succeeded. -/
theorem C10_archive_effects (outcome : ArchiveOutcome) (path : String)
    (fs : ArchiveFs)
    (h : (archive_compress_dir outcome path fs).1 = Except.ok ()) :
    (archive_compress_dir outcome path fs).2.outputExists = true
    ∧ (archive_compress_dir outcome path fs).2.tmpTarExists = false
    ∧ (path = "/" →
        (archive_compress_dir outcome path fs).2.srcDirExists
          = fs.srcDirExists)
    ∧ (path ≠ "/" → outcome.remove_dir_ok = true →
        (archive_compress_dir outcome path fs).2.srcDirExists = false)
    ∧ (outcome.remove_dir_ok = false →
        (archive_compress_dir outcome path fs).2.srcDirExists
          = fs.srcDirExists) := by
  simp only [archive_compress_dir] at h ⊢
  split_ifs at h ⊢ with h1 h2 h3 h4 h5 h6 h7 <;>
    first
    | exact Except.noConfusion h
    | exact ⟨rfl, rfl, fun hroot => absurd hroot h7.1, fun _ _ => rfl,
        fun hrm => by rw [hrm] at h7; exact absurd h7.2 (by simp)⟩
    | exact ⟨rfl, rfl, fun _ => rfl,
        fun hnroot hrm => absurd ⟨hnroot, hrm⟩ h7, fun _ => rfl⟩

/-- C10 witness: with every call succeeding on the non-root directory
`data`, success leaves the output written, the temporary tar gone, and the
source directory deleted. -/
theorem C10_witness :
    (archive_compress_dir archiveAllOk "data" afsStart).2.outputExists = true
    ∧ (archive_compress_dir archiveAllOk "data" afsStart).2.tmpTarExists
        = false
    ∧ (archive_compress_dir archiveAllOk "data" afsStart).2.srcDirExists
        = false := by
  have h := C10_archive_effects archiveAllOk "data" afsStart rfl
  exact ⟨h.1, h.2.1, h.2.2.2.1 (by decide) rfl⟩

end Rensen
